import Mathlib

/-!
Shallow embedding of the terminal idle monitor VS Code extension
(`src/extension.ts`).  Timestamps are modelled as natural numbers of
milliseconds (`Date.now()`); subtraction is truncated natural subtraction,
which agrees with the JavaScript arithmetic on the monotone timestamps the
program actually produces (and in guards of the shape `now - t > 2000` a
negative JS difference and a truncated-to-zero Nat difference decide the
guard identically).  Nullable numeric configuration values are `Option Nat`;
the JS fallback `x || d` (which also replaces `0` by `d`, since `0` is falsy)
is `orDefault`.
-/

namespace TerminalIdleMonitor

/-- Host-level effect emitted by `terminateExecution` (extension.ts lines
52-65): either send the interrupt signal (`sendText '\u0003'`, Ctrl+C) or
dispose (destroy) the terminal. -/
inductive TermAction where
  | sendSigInt
  | dispose
deriving DecidableEq, Repr

/-- An alert raised to the user by the tick handler: an idle alert
(lines 568-637) or a total-runtime alert (lines 650-721), each either
quiet (progress notification) or obnoxious (modal). -/
inductive Alert where
  | idle (obnoxious : Bool)
  | total (obnoxious : Bool)
deriving DecidableEq, Repr

/-- Whether an alert is a total-runtime alert. -/
def Alert.isTotal : Alert → Bool
  | .idle _ => false
  | .total _ => true

/-- Per-execution tracking state: the `ExecutionData` interface of
extension.ts (lines 3-15).  The optional TS field `forceNextObnoxious?`
is a `Bool` initialised to `false` (undefined is falsy everywhere it is
read).  The `terminal` object reference is abstracted to a numeric
identity (used only for equality with the active terminal) plus the
display name (used by the exclusion filter). -/
structure ExecutionData where
  startTime : Nat
  lastActivity : Nat
  terminalId : Nat
  terminalName : String
  commandLine : String
  idleNotified : Bool
  obnoxiousNotified : Bool
  totalNotified : Bool
  snoozeUntil : Nat
  forceNextObnoxious : Bool
  terminationAttempts : Nat
deriving DecidableEq, Repr

/-- The flat configuration read through
`vscode.workspace.getConfiguration('terminalIdleMonitor')`, restricted to
the keys the monitoring core reads.  Numeric keys that the code reads with
a `|| default` fallback are `Option Nat`; `obnoxiousModeTime` is nullable
and compared with `!== null && !== undefined` (no falsy fallback). -/
structure Config where
  enabled : Bool
  idleTimeout : Option Nat
  totalTimeout : Option Nat
  onlyMonitorActive : Bool
  obnoxiousMode : Bool
  obnoxiousModeTime : Option Nat
  obnoxiousSnooze : Bool
  enableExclusions : Bool
  excludePatterns : String
  useSigInt : Bool
  hardTerminateRetries : Option Nat
  autoTerminateEnabled : Bool
  autoTerminateTimeout : Option Nat
deriving DecidableEq, Repr

/-- JS `x || d` for an optional numeric configuration value: `undefined`,
`null` and `0` are all falsy and yield the default. -/
def orDefault (o : Option Nat) (d : Nat) : Nat :=
  match o with
  | none => d
  | some n => if n = 0 then d else n

/-! ### Exclusion filter (extension.ts lines 31-50) -/

/-- The characters removed by JavaScript `String.prototype.trim`
(WhiteSpace and LineTerminator code points). -/
def isJsWhitespace (c : Char) : Bool :=
  c = ' ' || c = '\t' || c = '\n' || c = '\r' ||
  c = '\x0b' || c = '\x0c' || c = '\u00a0' || c = '\u1680' ||
  ('\u2000' ≤ c && c ≤ '\u200a') ||
  c = '\u2028' || c = '\u2029' || c = '\u202f' || c = '\u205f' ||
  c = '\u3000' || c = '\ufeff'

/-- JavaScript `p.trim()` on a list of characters. -/
def jsTrim (l : List Char) : List Char :=
  ((l.dropWhile isJsWhitespace).reverse.dropWhile isJsWhitespace).reverse

/-- JavaScript `s.split(',')`: splits at every comma; consecutive commas
produce empty pieces and the empty string yields `[[]]`. -/
def splitOnComma : List Char → List (List Char)
  | [] => [[]]
  | c :: cs =>
    let r := splitOnComma cs
    if c = ',' then [] :: r
    else
      match r with
      | [] => [[c]]
      | p :: ps => (c :: p) :: ps

/-- What the JS regex `.` matches without the `s` flag: any character that
is not a line terminator. -/
def dotMatches (c : Char) : Bool :=
  !(c = '\n' || c = '\r' || c = '\u2028' || c = '\u2029')

/-- Fuel-indexed matcher for the regex the filter compiles from one
pattern piece: every character of the piece is escaped to a literal except
`*`, which becomes `.*`; the regex is anchored (`^...$`) and
case-insensitive (flag `i`).  Literal characters therefore compare
case-insensitively, and each `*` matches zero or more characters accepted
by `.`.  The fuel only bounds recursion; every recursive call shrinks
`pattern.length + s.length`, so `globMatch` below always supplies enough. -/
def globGo : Nat → List Char → List Char → Bool
  | 0, _, _ => false
  | Nat.succ fuel, pattern, s =>
    match pattern, s with
    | [], rest => rest.isEmpty
    | pc :: ps, rest =>
      if pc = '*' then
        globGo fuel ps rest ||
          (match rest with
           | [] => false
           | c :: cs => dotMatches c && globGo fuel (pc :: ps) cs)
      else
        match rest with
        | [] => false
        | c :: cs => pc.toLower = c.toLower && globGo fuel ps cs

/-- `regex.test(terminalName)` for the compiled pattern piece (extension.ts
lines 42-48). -/
def globMatch (pattern s : List Char) : Bool :=
  globGo (pattern.length + s.length + 1) pattern s

/-- `isTerminalExcluded` (extension.ts lines 31-50): returns `false` when
exclusions are disabled or the raw pattern string is empty; otherwise the
string is split on commas, each piece trimmed (empty pieces are kept), and
the name is excluded iff some piece matches it. -/
def isTerminalExcluded (enableExclusions : Bool) (excludePatterns : String)
    (name : String) : Bool :=
  if !enableExclusions then false
  else if excludePatterns = "" then false
  else ((splitOnComma excludePatterns.data).map jsTrim).any
    (fun p => globMatch p name.data)

/-- The exclusion predicate as the specification describes it
("split patterns on comma, trim whitespace, drop empties"): identical to
`isTerminalExcluded` except that pieces that trim to the empty string are
dropped before matching.  Kept separate so the two can be compared. -/
def excludedSpecClaim (enableExclusions : Bool) (excludePatterns : String)
    (name : String) : Bool :=
  if !enableExclusions then false
  else if excludePatterns = "" then false
  else (((splitOnComma excludePatterns.data).map jsTrim).filter
      (fun p => !p.isEmpty)).any
    (fun p => globMatch p name.data)

/-! ### Termination protocol (extension.ts lines 52-65) -/

/-- `terminateExecution`: when `useSigInt` is set, increment
`terminationAttempts`; if the new count exceeds
`hardTerminateRetries || 3` dispose the terminal, otherwise send Ctrl+C.
When `useSigInt` is unset, dispose immediately. -/
def terminateExecution (cfg : Config) (d : ExecutionData) :
    ExecutionData × TermAction :=
  if cfg.useSigInt then
    let d1 := { d with terminationAttempts := d.terminationAttempts + 1 }
    if orDefault cfg.hardTerminateRetries 3 < d1.terminationAttempts then
      (d1, .dispose)
    else
      (d1, .sendSigInt)
  else
    (d, .dispose)

/-- `n` successive invocations of `terminateExecution` on the same
execution with no intervening end event; returns the final state and the
emitted host actions in order. -/
def terminateN : Nat → Config → ExecutionData → ExecutionData × List TermAction
  | 0, _, d => (d, [])
  | Nat.succ n, cfg, d =>
    let r1 := terminateExecution cfg d
    let r2 := terminateN n cfg r1.1
    (r2.1, r1.2 :: r2.2)

/-! ### Registry actions -/

/-- The activity signal (extension.ts lines 764-771, the `execution.read()`
loop): refresh `lastActivity` and clear the two idle-related latches.  The
`Reset Timer` button (lines 596-599) and menu entry (lines 262-270) perform
the identical mutation. -/
def onActivity (now : Nat) (d : ExecutionData) : ExecutionData :=
  { d with lastActivity := now, idleNotified := false,
           obnoxiousNotified := false }

/-- The snooze action of `mins` minutes (modal branch, extension.ts lines
604-613; menu branch, lines 271-285): set `snoozeUntil`, clear all three
latches, and under the escalating-snooze policy arm `forceNextObnoxious`. -/
def snoozeAction (obnoxiousSnooze : Bool) (now mins : Nat)
    (d : ExecutionData) : ExecutionData :=
  { d with snoozeUntil := now + mins * 60000,
           idleNotified := false, obnoxiousNotified := false,
           totalNotified := false,
           forceNextObnoxious :=
             if obnoxiousSnooze then true else d.forceNextObnoxious }

/-- A fresh tracking record created by `onDidStartTerminalShellExecution`
(extension.ts lines 751-761). -/
def mkExecution (now tid : Nat) (name cmd : String) : ExecutionData :=
  { startTime := now, lastActivity := now, terminalId := tid,
    terminalName := name, commandLine := cmd,
    idleNotified := false, obnoxiousNotified := false,
    totalNotified := false, snoozeUntil := 0,
    forceNextObnoxious := false, terminationAttempts := 0 }

/-! ### Tick evaluation (extension.ts lines 487-734) -/

/-- The process-wide notification coordinator state:
`isNotificationShowing` and `lastNotificationCloseTime` (extension.ts
lines 25-26), together with `showing`, the number of notifications that
have been presented and not yet dismissed (in the code, the pending
`showWarningMessage` / `withProgress` promises; recorded explicitly here
so that "at most one alert is showing" is expressible). -/
structure GlobFlags where
  isNotificationShowing : Bool
  lastNotificationCloseTime : Nat
  showing : Nat
deriving DecidableEq, Repr

/-- The gating condition the tick applies before presenting an alert:
no notification currently showing and more than 2000 ms since the last
one closed (extension.ts lines 548 and 650-653). -/
def gateOpen (g : GlobFlags) (now : Nat) : Bool :=
  !g.isNotificationShowing && decide (2000 < now - g.lastNotificationCloseTime)

/-- Present a notification: set the showing flag (extension.ts lines 574
and 659) and count it as pending. -/
def present (g : GlobFlags) : GlobFlags :=
  { g with isNotificationShowing := true, showing := g.showing + 1 }

/-- Dismiss the showing notification: clear the flag and record the close
time (the `.then` handlers, extension.ts lines 593-594, 634-635, 679-680,
717-718). -/
def dismissFlags (now : Nat) (g : GlobFlags) : GlobFlags :=
  { isNotificationShowing := false, lastNotificationCloseTime := now,
    showing := g.showing - 1 }

/-- The idle-alert decision of one tick for one execution (extension.ts
lines 545-566), given the already-computed threshold comparisons:
`none` = no idle alert, `some b` = idle alert with obnoxiousness `b`. -/
def idleDecision (isObnoxiousMode isPastIdle isPastObnoxious : Bool)
    (d : ExecutionData) : Option Bool :=
  let obx : Bool :=
    if !d.obnoxiousNotified then
      if isPastObnoxious then true
      else if d.forceNextObnoxious && isPastIdle then true
      else if isObnoxiousMode && isPastIdle && !d.idleNotified then true
      else false
    else false
  if obx then some true
  else if !d.idleNotified && isPastIdle then some false
  else none

/-- The idle-alert decision exactly as the specification words it: six
prioritised clauses, first match wins.  Kept separate from `idleDecision`
(the code's formulation) so the two can be compared. -/
def idleDecisionSpec (isObnoxiousMode isPastIdle isPastObnoxious : Bool)
    (d : ExecutionData) : Option Bool :=
  if d.obnoxiousNotified then none
  else if isPastObnoxious then some true
  else if d.forceNextObnoxious && isPastIdle then some true
  else if isObnoxiousMode && isPastIdle && !d.idleNotified then some true
  else if !d.idleNotified && isPastIdle then some false
  else none

/-- `idle >= idleTimeout` with the falsy-default 60 s
(extension.ts lines 535 and 539). -/
def isPastIdleCalc (cfg : Config) (idle : Nat) : Bool :=
  decide (orDefault cfg.idleTimeout 60 ≤ idle)

/-- `obnoxiousTimeout !== null && obnoxiousTimeout !== undefined &&
idle >= obnoxiousTimeout` (extension.ts lines 536 and 540-543). -/
def isPastObnoxiousCalc (cfg : Config) (idle : Nat) : Bool :=
  match cfg.obnoxiousModeTime with
  | some t => decide (t ≤ idle)
  | none => false

/-- The idle duration in whole seconds a tick at `now` computes for a
record (extension.ts line 514). -/
def tickIdleSeconds (now : Nat) (d : ExecutionData) : Nat :=
  (now - d.lastActivity) / 1000

/-- Latch updates on firing an idle alert (extension.ts lines 568-573). -/
def fireIdle (obx : Bool) (d : ExecutionData) : ExecutionData :=
  { d with idleNotified := true,
           obnoxiousNotified := if obx then true else d.obnoxiousNotified,
           forceNextObnoxious := if obx then false else d.forceNextObnoxious }

/-- Latch updates on firing the total alert (extension.ts lines 657-663). -/
def fireTotal (obx : Bool) (d : ExecutionData) : ExecutionData :=
  { d with totalNotified := true,
           forceNextObnoxious := if obx then false else d.forceNextObnoxious }

/-- The outcome of one tick's processing of one execution: updated
coordinator flags, updated tracking record, the alerts presented and the
termination action invoked, if any. -/
structure ExecResult where
  flags : GlobFlags
  data : ExecutionData
  alerts : List Alert
  term : Option TermAction
deriving Repr

/-- The part of the per-execution tick body that follows the idle-alert
block: the auto-terminate check (extension.ts lines 640-648), whose
condition ignores the notification gating and whose `continue` skips the
rest of the iteration, and otherwise the total-alert block (lines
650-721). -/
def afterIdle (cfg : Config) (now : Nat) (g : GlobFlags)
    (d : ExecutionData) (alerts : List Alert) (idle elapsed : Nat) :
    ExecResult :=
  if cfg.enabled && cfg.autoTerminateEnabled &&
      decide (orDefault cfg.autoTerminateTimeout 10 * 60 ≤ idle) then
    let td := terminateExecution cfg d
    ⟨g, td.1, alerts, some td.2⟩
  else if cfg.enabled && gateOpen g now && !d.totalNotified &&
      decide (orDefault cfg.totalTimeout 5 * 60 ≤ elapsed) then
    let obxT := cfg.obnoxiousMode || d.forceNextObnoxious
    ⟨present g, fireTotal obxT d, alerts ++ [Alert.total obxT], none⟩
  else
    ⟨g, d, alerts, none⟩

/-- The per-execution tick body for a monitored (non-excluded, active-
checked, non-snoozed) execution: compute the elapsed and idle durations in
seconds, take the (gated) idle-alert decision, apply its latch updates and
present it, then run the auto-terminate and total-alert blocks. -/
def processMonitored (cfg : Config) (now : Nat) (g : GlobFlags)
    (d : ExecutionData) : ExecResult :=
  let elapsed := (now - d.startTime) / 1000
  let idle := (now - d.lastActivity) / 1000
  let dec :=
    if gateOpen g now then
      idleDecision cfg.obnoxiousMode (isPastIdleCalc cfg idle)
        (isPastObnoxiousCalc cfg idle) d
    else none
  match dec with
  | some b =>
    afterIdle cfg now (present g) (fireIdle b d) [Alert.idle b] idle elapsed
  | none =>
    afterIdle cfg now g d [] idle elapsed

/-- One tick's processing of one execution (the body of the `for` loop,
extension.ts lines 503-722): skip excluded executions, skip background
executions under `onlyMonitorActive`, skip snoozed executions, and
otherwise evaluate. -/
def processExecution (cfg : Config) (now : Nat) (isActive : Bool)
    (g : GlobFlags) (d : ExecutionData) : ExecResult :=
  if isTerminalExcluded cfg.enableExclusions cfg.excludePatterns
      d.terminalName then ⟨g, d, [], none⟩
  else if cfg.onlyMonitorActive && !isActive then ⟨g, d, [], none⟩
  else if now < d.snoozeUntil then ⟨g, d, [], none⟩
  else processMonitored cfg now g d

/-! ### The process-wide system: registry + coordinator flags

The extension is single-threaded and every host callback (tick, activity,
start/end events, menu commands, notification dismissal handlers) runs to
completion before the next one, so the system is modelled as an atomic
step relation on the registry contents plus the coordinator flags. -/

/-- Update the `i`-th element of a list in place. -/
def updateAt : List ExecutionData → Nat → (ExecutionData → ExecutionData) →
    List ExecutionData
  | [], _, _ => []
  | d :: ds, 0, f => f d :: ds
  | d :: ds, Nat.succ i, f => d :: updateAt ds i f

/-- Remove the `i`-th element of a list (`activeExecutions.delete`). -/
def removeAt : List ExecutionData → Nat → List ExecutionData
  | [], _ => []
  | _ :: ds, 0 => ds
  | d :: ds, Nat.succ i => d :: removeAt ds i

/-- The whole mutable state of the extension that the claims concern. -/
structure SysState where
  executions : List ExecutionData
  flags : GlobFlags
deriving Repr

/-- The fold of `processExecution` over the registry snapshot performed by
one tick (extension.ts line 503), threading the coordinator flags. -/
def tickFold (cfg : Config) (now : Nat) (activeTerminal : Option Nat) :
    GlobFlags → List ExecutionData → GlobFlags × List ExecutionData
  | g, [] => (g, [])
  | g, d :: ds =>
    let r := processExecution cfg now (activeTerminal == some d.terminalId) g d
    let rest := tickFold cfg now activeTerminal r.flags ds
    (rest.1, r.data :: rest.2)

/-- One whole tick (extension.ts lines 487-734): a no-op when monitoring
is disabled, otherwise the fold over all tracked executions. -/
def tickStep (cfg : Config) (now : Nat) (activeTerminal : Option Nat)
    (s : SysState) : SysState :=
  if cfg.enabled then
    let r := tickFold cfg now activeTerminal s.flags s.executions
    ⟨r.2, r.1⟩
  else s

/-- `onDidStartTerminalShellExecution` (extension.ts lines 746-762):
excluded terminals are not tracked; otherwise a fresh record is added. -/
def startStep (cfg : Config) (now tid : Nat) (name cmd : String)
    (s : SysState) : SysState :=
  if isTerminalExcluded cfg.enableExclusions cfg.excludePatterns name then s
  else ⟨s.executions ++ [mkExecution now tid name cmd], s.flags⟩

/-- The user's choice on a showing notification, routed by its `.then`
handler (extension.ts lines 592-613 and 677-697); `plain` covers
dismissal without an action (cancelling the quiet notification, closing
the modal, or the auto-dismissal triggered by fresh activity). -/
inductive DismissAction where
  | plain
  | resetTimer
  | snooze (mins : Nat)
  | terminate
  | exclude
deriving DecidableEq, Repr

/-- Apply a dismissal-time action to the registry. -/
def applyDismiss (cfg : Config) (now i : Nat) :
    DismissAction → List ExecutionData → List ExecutionData
  | .plain, l => l
  | .resetTimer, l => updateAt l i (onActivity now)
  | .snooze mins, l => updateAt l i (snoozeAction cfg.obnoxiousSnooze now mins)
  | .terminate, l => updateAt l i (fun d => (terminateExecution cfg d).1)
  | .exclude, l => removeAt l i

/-- The atomic steps of the extension.  A dismissal step requires a
notification to actually be showing (each presented notification resolves
its `.then` exactly once). -/
inductive Step (cfg : Config) : SysState → SysState → Prop
  | tick (s : SysState) (now : Nat) (activeTerminal : Option Nat) :
      Step cfg s (tickStep cfg now activeTerminal s)
  | start (s : SysState) (now tid : Nat) (name cmd : String) :
      Step cfg s (startStep cfg now tid name cmd s)
  | activity (s : SysState) (i now : Nat) :
      Step cfg s ⟨updateAt s.executions i (onActivity now), s.flags⟩
  | endExec (s : SysState) (i : Nat) :
      Step cfg s ⟨removeAt s.executions i, s.flags⟩
  | menuResetTimer (s : SysState) (i now : Nat) :
      Step cfg s ⟨updateAt s.executions i (onActivity now), s.flags⟩
  | menuSnooze (s : SysState) (i now mins : Nat) :
      Step cfg s
        ⟨updateAt s.executions i (snoozeAction cfg.obnoxiousSnooze now mins),
         s.flags⟩
  | menuTerminate (s : SysState) (i : Nat) :
      Step cfg s
        ⟨updateAt s.executions i (fun d => (terminateExecution cfg d).1),
         s.flags⟩
  | menuExclude (s : SysState) (i : Nat) :
      Step cfg s ⟨removeAt s.executions i, s.flags⟩
  | dismiss (s : SysState) (i now : Nat) (a : DismissAction)
      (h : s.flags.isNotificationShowing = true) :
      Step cfg s
        ⟨applyDismiss cfg now i a s.executions, dismissFlags now s.flags⟩

/-- The initial state: empty registry, no notification showing
(extension.ts lines 18-26). -/
def initState : SysState :=
  ⟨[], ⟨false, 0, 0⟩⟩

/-- States reachable from start-up by any interleaving of atomic steps. -/
inductive Reachable (cfg : Config) : SysState → Prop
  | init : Reachable cfg initState
  | step {s t : SysState} : Reachable cfg s → Step cfg s t → Reachable cfg t

/-! ### Tick traces of a single execution (for the idle re-raise claims) -/

/-- Number of quiet idle alerts in a list. -/
def quietIdleCount : List Alert → Nat
  | [] => 0
  | .idle false :: r => quietIdleCount r + 1
  | _ :: r => quietIdleCount r

/-- Number of obnoxious idle alerts in a list. -/
def obxIdleCount : List Alert → Nat
  | [] => 0
  | .idle true :: r => obxIdleCount r + 1
  | _ :: r => obxIdleCount r

/-- Run a sequence of tick evaluations over a single execution, each with
its own coordinator flags and time (covering every possible interleaving
with dismissals of other notifications, none of which mutate this record);
no activity signal and no user action occurs in between.  Returns the
final record and the total counts of quiet and obnoxious idle alerts. -/
def runTicks (cfg : Config) (isActive : Bool) :
    ExecutionData → List (GlobFlags × Nat) → ExecutionData × Nat × Nat
  | d, [] => (d, 0, 0)
  | d, (g, now) :: rest =>
    let r := processExecution cfg now isActive g d
    let r2 := runTicks cfg isActive r.data rest
    (r2.1, quietIdleCount r.alerts + r2.2.1, obxIdleCount r.alerts + r2.2.2)

/-- The idle alert (if any) among the alerts of one tick evaluation:
`some b` means an idle alert of obnoxiousness `b` was presented. -/
def idleAlertOf : List Alert → Option Bool
  | [] => none
  | .idle b :: _ => some b
  | .total _ :: r => idleAlertOf r

/-- The specification's idle-alert decision for a tick at `now`, with the
threshold comparisons the code computes at that instant. -/
def specDecisionAt (cfg : Config) (now : Nat) (d : ExecutionData) :
    Option Bool :=
  idleDecisionSpec cfg.obnoxiousMode
    (isPastIdleCalc cfg (tickIdleSeconds now d))
    (isPastObnoxiousCalc cfg (tickIdleSeconds now d)) d

/-! ### Concrete fixtures used by witnesses -/

/-- Coordinator flags with nothing showing and no recent dismissal. -/
def sampleFlags : GlobFlags := ⟨false, 0, 0⟩

/-- Coordinator flags while a notification is showing and the cooldown is
active. -/
def busyFlags : GlobFlags := ⟨true, 59500, 1⟩

/-- An execution started at time 0. -/
def sampleExec : ExecutionData := mkExecution 0 7 "term" "sleep 999"

/-- A snoozed tracking record. -/
def snoozedExec : ExecutionData := { sampleExec with snoozeUntil := 90000 }

/-- Coordinator flags shortly after a dismissal at t=61 s: nothing
showing, cooldown elapsed by t=120 s. -/
def coolFlags : GlobFlags := ⟨false, 61000, 0⟩

/-- Baseline configuration: monitoring on, 60 s idle timeout, 5 min total
timeout, everything else off. -/
def cfgBase : Config :=
  ⟨true, some 60, some 5, false, false, none, false, false, "", false, none,
   false, none⟩

/-- Graceful termination with an explicit retry limit of 3. -/
def cfgGraceful : Config := { cfgBase with
  useSigInt := true
  hardTerminateRetries := some 3 }

/-- Graceful termination with a configured retry limit of 0. -/
def cfgRetriesZero : Config := { cfgGraceful with
                                 hardTerminateRetries := some 0 }

/-- Graceful termination with no configured retry limit. -/
def cfgRetriesAbsent : Config := { cfgGraceful with
                                   hardTerminateRetries := none }

/-- Auto-terminate after one idle minute, hard termination. -/
def cfgAutoTerm : Config := { cfgBase with
  autoTerminateEnabled := true
  autoTerminateTimeout := some 1 }

/-- Obnoxious escalation timer at 120 s on top of a 60 s idle timeout. -/
def cfgEscalate : Config := { cfgBase with obnoxiousModeTime := some 120 }

/-! ### Claim theorems -/

/-- Claim C3: with `useGracefulSignal` (`useSigInt`) false a single
`terminateExecution` call disposes the terminal immediately and leaves the
record untouched; with `useSigInt` true and `maxGracefulRetries = 3`, four
invocations without an intervening end event send Ctrl+C on attempts 1-3
and dispose on attempt 4, `terminationAttempts` growing by exactly one per
invocation. -/
theorem termination_protocol_escalation (cfg : Config) (d : ExecutionData) :
    (cfg.useSigInt = false → terminateExecution cfg d = (d, TermAction.dispose)) ∧
    (cfg.useSigInt = true → cfg.hardTerminateRetries = some 3 →
      d.terminationAttempts = 0 →
      (terminateN 4 cfg d).2 =
        [TermAction.sendSigInt, TermAction.sendSigInt, TermAction.sendSigInt,
         TermAction.dispose] ∧
      (terminateN 1 cfg d).1.terminationAttempts = 1 ∧
      (terminateN 2 cfg d).1.terminationAttempts = 2 ∧
      (terminateN 3 cfg d).1.terminationAttempts = 3 ∧
      (terminateN 4 cfg d).1.terminationAttempts = 4) := by
  constructor
  · intro h
    simp [terminateExecution, h]
  · intro hu hr h0
    simp [terminateN, terminateExecution, hu, hr, h0, orDefault]

/-- Witness for C3 at a concrete configuration and fresh record. -/
theorem termination_protocol_escalation_witness :
    ((terminateN 4 cfgGraceful sampleExec).2 =
      [TermAction.sendSigInt, TermAction.sendSigInt, TermAction.sendSigInt,
       TermAction.dispose] ∧
     (terminateN 1 cfgGraceful sampleExec).1.terminationAttempts = 1 ∧
     (terminateN 2 cfgGraceful sampleExec).1.terminationAttempts = 2 ∧
     (terminateN 3 cfgGraceful sampleExec).1.terminationAttempts = 3 ∧
     (terminateN 4 cfgGraceful sampleExec).1.terminationAttempts = 4) ∧
    terminateExecution { cfgGraceful with useSigInt := false } sampleExec =
      (sampleExec, TermAction.dispose) :=
  ⟨(termination_protocol_escalation cfgGraceful sampleExec).2 rfl rfl rfl,
   (termination_protocol_escalation
     { cfgGraceful with useSigInt := false } sampleExec).1 rfl⟩

/-- Claim C10: a configured `hardTerminateRetries` of 0 (or an absent one)
is falsy in `config.get<number>('hardTerminateRetries') || 3`, so graceful
termination still uses the default limit 3: the first three invocations
send Ctrl+C and only the fourth disposes; in particular a limit of 0 does
not dispose on the first attempt. -/
theorem zero_retry_limit_behaves_as_default (cfg : Config)
    (d : ExecutionData) (hu : cfg.useSigInt = true)
    (h0 : d.terminationAttempts = 0)
    (hr : cfg.hardTerminateRetries = some 0 ∨ cfg.hardTerminateRetries = none) :
    orDefault cfg.hardTerminateRetries 3 = 3 ∧
    (terminateN 1 cfg d).2 = [TermAction.sendSigInt] ∧
    (terminateN 3 cfg d).2 =
      [TermAction.sendSigInt, TermAction.sendSigInt, TermAction.sendSigInt] ∧
    (terminateN 4 cfg d).2 =
      [TermAction.sendSigInt, TermAction.sendSigInt, TermAction.sendSigInt,
       TermAction.dispose] := by
  rcases hr with hr | hr <;>
    simp [terminateN, terminateExecution, hu, hr, h0, orDefault]

/-- Witness for C10 with `hardTerminateRetries = 0`. -/
theorem zero_retry_limit_behaves_as_default_witness :
    orDefault cfgRetriesZero.hardTerminateRetries 3 = 3 ∧
    (terminateN 1 cfgRetriesZero sampleExec).2 = [TermAction.sendSigInt] ∧
    (terminateN 3 cfgRetriesZero sampleExec).2 =
      [TermAction.sendSigInt, TermAction.sendSigInt, TermAction.sendSigInt] ∧
    (terminateN 4 cfgRetriesZero sampleExec).2 =
      [TermAction.sendSigInt, TermAction.sendSigInt, TermAction.sendSigInt,
       TermAction.dispose] :=
  zero_retry_limit_behaves_as_default cfgRetriesZero sampleExec rfl rfl
    (Or.inl rfl)

/-- Claim C5: snoozing for `mins` minutes at time `now` sets `snoozeUntil`
to exactly `now + mins * 60000` ms, clears all three alert latches, and
arms `forceNextObnoxious` exactly when the escalating-snooze policy
(`obnoxiousSnooze`) is on (when it is off the field is left as it was). -/
theorem snooze_sets_window_and_clears_latches (obSnooze : Bool)
    (now mins : Nat) (d : ExecutionData) :
    (snoozeAction obSnooze now mins d).snoozeUntil = now + mins * 60000 ∧
    (snoozeAction obSnooze now mins d).idleNotified = false ∧
    (snoozeAction obSnooze now mins d).obnoxiousNotified = false ∧
    (snoozeAction obSnooze now mins d).totalNotified = false ∧
    (snoozeAction obSnooze now mins d).forceNextObnoxious =
      (if obSnooze then true else d.forceNextObnoxious) := by
  simp [snoozeAction]

/-- Claim C6: an activity signal sets `lastActivity` to the current time,
clears `idleNotified` and `obnoxiousNotified`, and leaves `totalNotified`,
`forceNextObnoxious`, `snoozeUntil`, `startTime` and
`terminationAttempts` untouched. -/
theorem activity_clears_only_idle_latches (now : Nat) (d : ExecutionData) :
    (onActivity now d).lastActivity = now ∧
    (onActivity now d).idleNotified = false ∧
    (onActivity now d).obnoxiousNotified = false ∧
    (onActivity now d).totalNotified = d.totalNotified ∧
    (onActivity now d).forceNextObnoxious = d.forceNextObnoxious ∧
    (onActivity now d).snoozeUntil = d.snoozeUntil ∧
    (onActivity now d).startTime = d.startTime ∧
    (onActivity now d).terminationAttempts = d.terminationAttempts := by
  simp [onActivity]

/-- The empty pattern piece compiles to the regex `^$`, which matches only
the empty name. -/
theorem globMatch_nil (l : List Char) : globMatch [] l = l.isEmpty := rfl

/-- Dropping pieces on which the matcher is false does not change `any`. -/
theorem any_filter_isEmpty_eq (f : List Char → Bool) (hf : f [] = false) :
    ∀ l : List (List Char),
      (l.filter (fun p => !p.isEmpty)).any f = l.any f := by
  intro l
  induction l with
  | nil => rfl
  | cons p ps ih =>
    cases hp : p.isEmpty
    · simp only [List.filter, List.any, hp, Bool.not_false, ih]
    · have hnil : p = [] := by
        cases p with
        | nil => rfl
        | cons a as => simp at hp
      subst hnil
      simp only [List.filter, List.any, hp, Bool.not_true, ih, hf,
        Bool.false_or]

/-- A non-empty string has a non-empty character list. -/
theorem data_isEmpty_false_of_ne {name : String} (h : name ≠ "") :
    name.data.isEmpty = false := by
  cases name with
  | mk l =>
    cases l with
    | nil => exact absurd rfl h
    | cons a as => rfl

/-- Claim C8, counterexample: the code does not drop empty pieces.  On the
pattern list `","` (two pieces, both trimming to empty) and the empty
terminal name, `isTerminalExcluded` returns `true` — the empty piece
compiles to `^$`, which matches the empty name — while the predicate the
claim describes (empties dropped) returns `false`. -/
theorem exclusion_filter_counterexample :
    isTerminalExcluded true "," "" = true ∧
    excludedSpecClaim true "," "" = false := by decide

/-- Claim C8 as amended: empty pieces are retained rather than dropped; a
piece that trims to empty matches exactly the empty name, so on every
non-empty terminal name the filter coincides with the claimed predicate
(case-insensitive anchored match, all metacharacters literal except `*`,
which matches zero or more characters, line terminators excepted as with
the JS regex `.`).  In particular `"npm: watch*"` matches
`"npm: watch tests"` case-insensitively and not `"npm: build"`. -/
theorem exclusion_filter_amended (en : Bool) (pats name : String)
    (h : name ≠ "") :
    isTerminalExcluded en pats name = excludedSpecClaim en pats name ∧
    isTerminalExcluded true "npm: watch*" "npm: watch tests" = true ∧
    isTerminalExcluded true "npm: watch*" "NPM: WATCH TESTS" = true ∧
    isTerminalExcluded true "npm: watch*" "npm: build" = false := by
  refine ⟨?_, by decide, by decide, by decide⟩
  unfold isTerminalExcluded excludedSpecClaim
  cases en
  · rfl
  · by_cases hp : pats = ""
    · simp [hp]
    · simp only [Bool.not_true, Bool.false_eq_true, if_false, if_neg hp]
      exact (any_filter_isEmpty_eq (fun p => globMatch p name.data)
        (by show globMatch [] name.data = false
            rw [globMatch_nil, data_isEmpty_false_of_ne h]) _).symm

/-- Witness for the amended C8 at concrete inputs. -/
theorem exclusion_filter_amended_witness :
    isTerminalExcluded true "a" "b" = excludedSpecClaim true "a" "b" ∧
    isTerminalExcluded true "npm: watch*" "npm: watch tests" = true ∧
    isTerminalExcluded true "npm: watch*" "NPM: WATCH TESTS" = true ∧
    isTerminalExcluded true "npm: watch*" "npm: build" = false :=
  exclusion_filter_amended true "a" "b" (by decide)

/-- Claim C9: while `now < snoozeUntil` the execution is fully exempt from
the tick: no idle alert, no total alert, no auto-terminate invocation, the
coordinator flags are untouched and the record itself is returned
unchanged. -/
theorem snoozed_execution_fully_exempt (cfg : Config) (now : Nat)
    (isActive : Bool) (g : GlobFlags) (d : ExecutionData)
    (h : now < d.snoozeUntil) :
    processExecution cfg now isActive g d = ⟨g, d, [], none⟩ := by
  unfold processExecution
  split_ifs <;> rfl

/-- Witness for C9: a record snoozed until t=90 s is untouched by a tick
at t=60 s. -/
theorem snoozed_execution_fully_exempt_witness :
    processExecution cfgBase 60000 true sampleFlags snoozedExec =
      ⟨sampleFlags, snoozedExec, [], none⟩ :=
  snoozed_execution_fully_exempt cfgBase 60000 true sampleFlags snoozedExec
    (by decide)

/-! ### Structural lemmas about the tick evaluator -/

/-- `terminateExecution` changes nothing but `terminationAttempts`. -/
theorem terminateExecution_fst (cfg : Config) (d : ExecutionData) :
    (terminateExecution cfg d).1 =
      if cfg.useSigInt then
        { d with terminationAttempts := d.terminationAttempts + 1 }
      else d := by
  simp only [terminateExecution]
  split_ifs <;> rfl

/-- While a notification is showing the gate is closed. -/
theorem gateOpen_present (g : GlobFlags) (now : Nat) :
    gateOpen (present g) now = false := rfl

/-- Appending a total alert does not change the idle alert of a tick. -/
theorem idleAlertOf_append_total (l : List Alert) (b : Bool) :
    idleAlertOf (l ++ [Alert.total b]) = idleAlertOf l := by
  induction l with
  | nil => rfl
  | cons a r ih => cases a <;> simp [idleAlertOf, ih]

/-- The auto-terminate and total-alert blocks never add an idle alert. -/
theorem afterIdle_idleAlertOf (cfg : Config) (now : Nat) (g : GlobFlags)
    (d : ExecutionData) (alerts : List Alert) (idle elapsed : Nat) :
    idleAlertOf (afterIdle cfg now g d alerts idle elapsed).alerts =
      idleAlertOf alerts := by
  simp only [afterIdle]
  split_ifs <;> simp [idleAlertOf_append_total]

/-- The auto-terminate and total-alert blocks preserve `idleNotified`. -/
theorem afterIdle_idleNotified (cfg : Config) (now : Nat) (g : GlobFlags)
    (d : ExecutionData) (alerts : List Alert) (idle elapsed : Nat) :
    (afterIdle cfg now g d alerts idle elapsed).data.idleNotified =
      d.idleNotified := by
  simp only [afterIdle]
  split_ifs
  · rw [terminateExecution_fst]; split <;> rfl
  · rfl
  · rfl

/-- The auto-terminate and total-alert blocks preserve
`obnoxiousNotified`. -/
theorem afterIdle_obnoxiousNotified (cfg : Config) (now : Nat)
    (g : GlobFlags) (d : ExecutionData) (alerts : List Alert)
    (idle elapsed : Nat) :
    (afterIdle cfg now g d alerts idle elapsed).data.obnoxiousNotified =
      d.obnoxiousNotified := by
  simp only [afterIdle]
  split_ifs
  · rw [terminateExecution_fst]; split <;> rfl
  · rfl
  · rfl

/-- When the gate is closed on entry to `afterIdle` (as it is right after
an idle alert was presented) the total-alert block cannot run, so
`forceNextObnoxious` is preserved. -/
theorem afterIdle_fno (cfg : Config) (now : Nat) (g : GlobFlags)
    (d : ExecutionData) (alerts : List Alert) (idle elapsed : Nat)
    (h : gateOpen g now = false) :
    (afterIdle cfg now g d alerts idle elapsed).data.forceNextObnoxious =
      d.forceNextObnoxious := by
  simp only [afterIdle]
  split_ifs with h1 h2
  · rw [terminateExecution_fst]; split <;> rfl
  · rw [h] at h2; simp at h2
  · rfl

/-- When the auto-terminate condition holds, `afterIdle` invokes the
termination protocol and skips the total-alert block, whatever the
coordinator flags say. -/
theorem afterIdle_autoterm (cfg : Config) (now : Nat) (g : GlobFlags)
    (d : ExecutionData) (alerts : List Alert) (idle elapsed : Nat)
    (hen : cfg.enabled = true) (hat : cfg.autoTerminateEnabled = true)
    (hidle : orDefault cfg.autoTerminateTimeout 10 * 60 ≤ idle) :
    afterIdle cfg now g d alerts idle elapsed =
      ⟨g, (terminateExecution cfg d).1, alerts,
       some (terminateExecution cfg d).2⟩ := by
  simp only [afterIdle]
  rw [if_pos (by simp [hen, hat, hidle])]

/-- A tick evaluation of a non-excluded, monitored, non-snoozed execution
is the monitored body. -/
theorem processExecution_monitored (cfg : Config) (now : Nat)
    (isActive : Bool) (g : GlobFlags) (d : ExecutionData)
    (hexc : isTerminalExcluded cfg.enableExclusions cfg.excludePatterns
      d.terminalName = false)
    (hact : (cfg.onlyMonitorActive && !isActive) = false)
    (hsn : ¬ now < d.snoozeUntil) :
    processExecution cfg now isActive g d = processMonitored cfg now g d := by
  unfold processExecution
  rw [hexc, hact]
  simp [hsn]

/-- On records where `obnoxiousNotified` implies `idleNotified` (an
invariant of every reachable record) the code's idle-alert decision
coincides with the specification's six prioritised clauses. -/
theorem idleDecision_eq_spec (m pi po : Bool) (d : ExecutionData)
    (hinv : d.obnoxiousNotified = true → d.idleNotified = true) :
    idleDecision m pi po d = idleDecisionSpec m pi po d := by
  unfold idleDecision idleDecisionSpec
  cases ho : d.obnoxiousNotified <;> cases hf : d.forceNextObnoxious <;>
    cases hi : d.idleNotified <;> cases m <;> cases pi <;> cases po <;>
      simp_all

/-- A quiet idle alert only fires while `idleNotified` is false. -/
theorem idleDecision_quiet {m pi po : Bool} {d : ExecutionData}
    (h : idleDecision m pi po d = some false) : d.idleNotified = false := by
  unfold idleDecision at h
  cases ho : d.obnoxiousNotified <;> cases hf : d.forceNextObnoxious <;>
    cases hi : d.idleNotified <;> cases m <;> cases pi <;> cases po <;>
      simp_all

/-- An obnoxious idle alert only fires while `obnoxiousNotified` is
false. -/
theorem idleDecision_obnoxious {m pi po : Bool} {d : ExecutionData}
    (h : idleDecision m pi po d = some true) :
    d.obnoxiousNotified = false := by
  unfold idleDecision at h
  cases ho : d.obnoxiousNotified <;> cases hf : d.forceNextObnoxious <;>
    cases hi : d.idleNotified <;> cases m <;> cases pi <;> cases po <;>
      simp_all

/-- Claim C4: the auto-terminate check is not gated by the showing flag or
the post-dismissal cooldown.  On a tick where the execution is tracked,
non-excluded, monitored and non-snoozed, if `autoTerminateEnabled` holds
and the idle time has reached `autoTerminateTimeout` minutes, the
termination protocol is invoked — for arbitrary coordinator flags `g`,
including a showing notification or an active cooldown — and the
total-alert processing is skipped for the rest of the tick (no total alert
is presented and `totalNotified` is untouched). -/
theorem auto_terminate_ignores_gating (cfg : Config) (now : Nat)
    (isActive : Bool) (g : GlobFlags) (d : ExecutionData)
    (hen : cfg.enabled = true) (hat : cfg.autoTerminateEnabled = true)
    (hexc : isTerminalExcluded cfg.enableExclusions cfg.excludePatterns
      d.terminalName = false)
    (hact : (cfg.onlyMonitorActive && !isActive) = false)
    (hsn : ¬ now < d.snoozeUntil)
    (hidle : orDefault cfg.autoTerminateTimeout 10 * 60 ≤
      (now - d.lastActivity) / 1000) :
    ((processExecution cfg now isActive g d).term).isSome = true ∧
    (processExecution cfg now isActive g d).alerts.all
      (fun a => !a.isTotal) = true ∧
    (processExecution cfg now isActive g d).data.totalNotified =
      d.totalNotified := by
  rw [processExecution_monitored cfg now isActive g d hexc hact hsn]
  simp only [processMonitored]
  split <;>
    (rw [afterIdle_autoterm _ _ _ _ _ _ _ hen hat hidle]
     refine ⟨rfl, rfl, ?_⟩
     rw [terminateExecution_fst]
     split <;> rfl)

/-- Witness for C4: with a notification showing and the cooldown active
(`busyFlags`), a 60 s-idle execution under a 1-minute auto-terminate limit
is still terminated, with no total alert. -/
theorem auto_terminate_ignores_gating_witness :
    ((processExecution cfgAutoTerm 60000 true busyFlags sampleExec).term).isSome
      = true ∧
    (processExecution cfgAutoTerm 60000 true busyFlags sampleExec).alerts.all
      (fun a => !a.isTotal) = true ∧
    (processExecution cfgAutoTerm 60000 true busyFlags
      sampleExec).data.totalNotified = sampleExec.totalNotified :=
  auto_terminate_ignores_gating cfgAutoTerm 60000 true busyFlags sampleExec
    rfl rfl (by decide) rfl (by decide) (by decide)

/-- Claim C1: for a tracked, non-excluded, monitored, non-snoozed
execution whose tick is not gated (no notification showing, cooldown
elapsed), the idle alert presented is exactly the one given by the
specification's six prioritised clauses (`idleDecisionSpec`, first match
wins), provided `obnoxiousNotified → idleNotified` (which holds of every
reachable record, since every setter of `obnoxiousNotified` also sets
`idleNotified` and every clearer of `idleNotified` also clears
`obnoxiousNotified`); and on firing, `idleNotified` is set, and an
obnoxious firing also sets `obnoxiousNotified` and clears
`forceNextObnoxious`. -/
theorem idle_alert_priority_order (cfg : Config) (now : Nat)
    (isActive : Bool) (g : GlobFlags) (d : ExecutionData)
    (hinv : d.obnoxiousNotified = true → d.idleNotified = true)
    (hexc : isTerminalExcluded cfg.enableExclusions cfg.excludePatterns
      d.terminalName = false)
    (hact : (cfg.onlyMonitorActive && !isActive) = false)
    (hsn : ¬ now < d.snoozeUntil)
    (hgate : gateOpen g now = true) :
    idleAlertOf (processExecution cfg now isActive g d).alerts =
      specDecisionAt cfg now d ∧
    (processExecution cfg now isActive g d).data.idleNotified =
      (match specDecisionAt cfg now d with
       | some _ => true
       | none => d.idleNotified) ∧
    (processExecution cfg now isActive g d).data.obnoxiousNotified =
      (match specDecisionAt cfg now d with
       | some true => true
       | _ => d.obnoxiousNotified) ∧
    (match specDecisionAt cfg now d with
     | some true =>
       (processExecution cfg now isActive g d).data.forceNextObnoxious = false
     | _ => True) := by
  rw [processExecution_monitored cfg now isActive g d hexc hact hsn]
  have hsd : specDecisionAt cfg now d =
      idleDecision cfg.obnoxiousMode
        (isPastIdleCalc cfg ((now - d.lastActivity) / 1000))
        (isPastObnoxiousCalc cfg ((now - d.lastActivity) / 1000)) d := by
    rw [specDecisionAt, tickIdleSeconds,
      idleDecision_eq_spec _ _ _ _ hinv]
  rw [hsd]
  simp only [processMonitored]
  rw [if_pos hgate]
  cases hdec : idleDecision cfg.obnoxiousMode
      (isPastIdleCalc cfg ((now - d.lastActivity) / 1000))
      (isPastObnoxiousCalc cfg ((now - d.lastActivity) / 1000)) d with
  | none =>
    refine ⟨?_, ?_, ?_, trivial⟩
    · rw [afterIdle_idleAlertOf]; rfl
    · rw [afterIdle_idleNotified]
    · rw [afterIdle_obnoxiousNotified]
  | some b =>
    refine ⟨?_, ?_, ?_, ?_⟩
    · rw [afterIdle_idleAlertOf]; rfl
    · rw [afterIdle_idleNotified]; rfl
    · rw [afterIdle_obnoxiousNotified]
      cases b <;> rfl
    · cases b
      · trivial
      · rw [afterIdle_fno _ _ _ _ _ _ _ (gateOpen_present g now)]
        rfl

/-- Witness for C1 with obnoxious mode on: at 60 s idle the decision is an
obnoxious idle alert and both latches are set. -/
theorem idle_alert_priority_order_witness :
    idleAlertOf (processExecution { cfgBase with obnoxiousMode := true }
      60000 true sampleFlags sampleExec).alerts =
      specDecisionAt { cfgBase with obnoxiousMode := true } 60000 sampleExec ∧
    (processExecution { cfgBase with obnoxiousMode := true }
      60000 true sampleFlags sampleExec).data.idleNotified =
      (match specDecisionAt { cfgBase with obnoxiousMode := true }
        60000 sampleExec with
       | some _ => true
       | none => sampleExec.idleNotified) ∧
    (processExecution { cfgBase with obnoxiousMode := true }
      60000 true sampleFlags sampleExec).data.obnoxiousNotified =
      (match specDecisionAt { cfgBase with obnoxiousMode := true }
        60000 sampleExec with
       | some true => true
       | _ => sampleExec.obnoxiousNotified) ∧
    (match specDecisionAt { cfgBase with obnoxiousMode := true }
      60000 sampleExec with
     | some true =>
       (processExecution { cfgBase with obnoxiousMode := true }
         60000 true sampleFlags sampleExec).data.forceNextObnoxious = false
     | _ => True) :=
  idle_alert_priority_order { cfgBase with obnoxiousMode := true } 60000 true
    sampleFlags sampleExec (by decide) (by decide) rfl (by decide) (by decide)

/-- Appending a total alert adds no quiet idle alert. -/
theorem quietIdleCount_append_total (l : List Alert) (b : Bool) :
    quietIdleCount (l ++ [Alert.total b]) = quietIdleCount l := by
  induction l with
  | nil => rfl
  | cons a r ih =>
    cases a with
    | idle bb => cases bb <;> simp [quietIdleCount, ih]
    | total bb => simp [quietIdleCount, ih]

/-- Appending a total alert adds no obnoxious idle alert. -/
theorem obxIdleCount_append_total (l : List Alert) (b : Bool) :
    obxIdleCount (l ++ [Alert.total b]) = obxIdleCount l := by
  induction l with
  | nil => rfl
  | cons a r ih =>
    cases a with
    | idle bb => cases bb <;> simp [obxIdleCount, ih]
    | total bb => simp [obxIdleCount, ih]

/-- The auto-terminate and total-alert blocks add no quiet idle alert. -/
theorem afterIdle_quietIdleCount (cfg : Config) (now : Nat) (g : GlobFlags)
    (d : ExecutionData) (alerts : List Alert) (idle elapsed : Nat) :
    quietIdleCount (afterIdle cfg now g d alerts idle elapsed).alerts =
      quietIdleCount alerts := by
  simp only [afterIdle]
  split_ifs <;> simp [quietIdleCount_append_total]

/-- The auto-terminate and total-alert blocks add no obnoxious idle
alert. -/
theorem afterIdle_obxIdleCount (cfg : Config) (now : Nat) (g : GlobFlags)
    (d : ExecutionData) (alerts : List Alert) (idle elapsed : Nat) :
    obxIdleCount (afterIdle cfg now g d alerts idle elapsed).alerts =
      obxIdleCount alerts := by
  simp only [afterIdle]
  split_ifs <;> simp [obxIdleCount_append_total]

/-- One tick evaluation of one execution: the latch invariant is
preserved, a quiet idle alert consumes the `idleNotified` budget and an
obnoxious one the `obnoxiousNotified` budget (each latch, once set by a
fired alert, is never cleared by tick processing alone). -/
theorem processExecution_latch_step (cfg : Config) (now : Nat)
    (isActive : Bool) (g : GlobFlags) (d : ExecutionData)
    (hinv : d.obnoxiousNotified = true → d.idleNotified = true) :
    ((processExecution cfg now isActive g d).data.obnoxiousNotified = true →
      (processExecution cfg now isActive g d).data.idleNotified = true) ∧
    quietIdleCount (processExecution cfg now isActive g d).alerts +
      (if (processExecution cfg now isActive g d).data.idleNotified = true
       then 0 else 1) ≤
      (if d.idleNotified = true then 0 else 1) ∧
    obxIdleCount (processExecution cfg now isActive g d).alerts +
      (if (processExecution cfg now isActive g d).data.obnoxiousNotified =
        true then 0 else 1) ≤
      (if d.obnoxiousNotified = true then 0 else 1) := by
  cases hE : isTerminalExcluded cfg.enableExclusions cfg.excludePatterns
      d.terminalName with
  | true =>
    have hr : processExecution cfg now isActive g d = ⟨g, d, [], none⟩ := by
      simp [processExecution, hE]
    rw [hr]
    exact ⟨hinv, by simp [quietIdleCount], by simp [obxIdleCount]⟩
  | false =>
    cases hA : (cfg.onlyMonitorActive && !isActive) with
    | true =>
      have hr : processExecution cfg now isActive g d = ⟨g, d, [], none⟩ := by
        simp [processExecution, hE, hA]
      rw [hr]
      exact ⟨hinv, by simp [quietIdleCount], by simp [obxIdleCount]⟩
    | false =>
      by_cases hS : now < d.snoozeUntil
      · have hr : processExecution cfg now isActive g d = ⟨g, d, [], none⟩ := by
          simp [processExecution, hE, hA, hS]
        rw [hr]
        exact ⟨hinv, by simp [quietIdleCount], by simp [obxIdleCount]⟩
      · rw [processExecution_monitored cfg now isActive g d hE hA hS]
        simp only [processMonitored]
        by_cases hg : gateOpen g now = true
        · have hgi : (if gateOpen g now = true then
              idleDecision cfg.obnoxiousMode
                (isPastIdleCalc cfg ((now - d.lastActivity) / 1000))
                (isPastObnoxiousCalc cfg ((now - d.lastActivity) / 1000)) d
            else none) =
              idleDecision cfg.obnoxiousMode
                (isPastIdleCalc cfg ((now - d.lastActivity) / 1000))
                (isPastObnoxiousCalc cfg ((now - d.lastActivity) / 1000)) d :=
            if_pos hg
          simp only [hgi]
          cases hdec : idleDecision cfg.obnoxiousMode
              (isPastIdleCalc cfg ((now - d.lastActivity) / 1000))
              (isPastObnoxiousCalc cfg ((now - d.lastActivity) / 1000)) d with
          | none =>
            simp only [afterIdle_idleNotified, afterIdle_obnoxiousNotified,
              afterIdle_quietIdleCount, afterIdle_obxIdleCount]
            exact ⟨hinv, by simp [quietIdleCount], by simp [obxIdleCount]⟩
          | some b =>
            simp only [afterIdle_idleNotified, afterIdle_obnoxiousNotified,
              afterIdle_quietIdleCount, afterIdle_obxIdleCount]
            cases b with
            | false =>
              have hq : d.idleNotified = false := idleDecision_quiet hdec
              refine ⟨by simp [fireIdle], ?_, ?_⟩
              · simp [quietIdleCount, fireIdle, hq]
              · simp [obxIdleCount, fireIdle]
            | true =>
              have hb : d.obnoxiousNotified = false :=
                idleDecision_obnoxious hdec
              refine ⟨by simp [fireIdle], ?_, ?_⟩
              · simp [quietIdleCount, fireIdle]
              · simp [obxIdleCount, fireIdle, hb]
        · have hgi : (if gateOpen g now = true then
              idleDecision cfg.obnoxiousMode
                (isPastIdleCalc cfg ((now - d.lastActivity) / 1000))
                (isPastObnoxiousCalc cfg ((now - d.lastActivity) / 1000)) d
            else none) = none := if_neg hg
          simp only [hgi]
          simp only [afterIdle_idleNotified, afterIdle_obnoxiousNotified,
            afterIdle_quietIdleCount, afterIdle_obxIdleCount]
          exact ⟨hinv, by simp [quietIdleCount], by simp [obxIdleCount]⟩

/-- Along any tick trace without activity or user actions, the quiet and
obnoxious idle-alert counts are bounded by the latch budgets of the
starting record. -/
theorem runTicks_bound (cfg : Config) (isActive : Bool) :
    ∀ (trace : List (GlobFlags × Nat)) (d : ExecutionData),
      (d.obnoxiousNotified = true → d.idleNotified = true) →
      (runTicks cfg isActive d trace).2.1 +
        (if (runTicks cfg isActive d trace).1.idleNotified = true
         then 0 else 1) ≤
        (if d.idleNotified = true then 0 else 1) ∧
      (runTicks cfg isActive d trace).2.2 +
        (if (runTicks cfg isActive d trace).1.obnoxiousNotified = true
         then 0 else 1) ≤
        (if d.obnoxiousNotified = true then 0 else 1) := by
  intro trace
  induction trace with
  | nil => intro d hinv; simp [runTicks]
  | cons p rest ih =>
    obtain ⟨g, now⟩ := p
    intro d hinv
    have hstep := processExecution_latch_step cfg now isActive g d hinv
    have hrec := ih (processExecution cfg now isActive g d).data hstep.1
    simp only [runTicks]
    constructor
    · have h1 := hstep.2.1
      have h2 := hrec.1
      omega
    · have h1 := hstep.2.2
      have h2 := hrec.2
      omega

/-- Claim C7, counterexample: with `idleTimeout = 60` and
`obnoxiousModeTime = 120`, a tick at 60 s idle raises a quiet idle alert
and sets `idleNotified`; with no activity and no reset/snooze in between,
a later tick at 120 s idle raises a second (obnoxious) idle alert in the
same continuous crossing — the escalation clause does not consult
`idleNotified` — so two idle alerts are raised in one crossing. -/
theorem idle_realert_counterexample :
    quietIdleCount (processExecution cfgEscalate 60000 true sampleFlags
      sampleExec).alerts = 1 ∧
    (processExecution cfgEscalate 60000 true sampleFlags
      sampleExec).data.idleNotified = true ∧
    obxIdleCount (processExecution cfgEscalate 120000 true coolFlags
      (processExecution cfgEscalate 60000 true sampleFlags
        sampleExec).data).alerts = 1 ∧
    (runTicks cfgEscalate true sampleExec
      [(sampleFlags, 60000), (coolFlags, 120000)]).2.1 +
    (runTicks cfgEscalate true sampleExec
      [(sampleFlags, 60000), (coolFlags, 120000)]).2.2 = 2 := by decide

/-- Claim C7 as amended: per continuous idle crossing (a tick trace with
no activity and no reset/snooze), at most one quiet idle alert is raised
— none once `idleNotified` is set — and at most one obnoxious idle alert
— none once `obnoxiousNotified` is set — hence at most two idle alerts in
total; a second alert in a crossing can only be the obnoxious escalation
(configured obnoxious timeout or forced escalation), which does not
consult `idleNotified`. -/
theorem idle_alert_once_per_crossing_amended (cfg : Config)
    (isActive : Bool) (trace : List (GlobFlags × Nat)) (d : ExecutionData)
    (hinv : d.obnoxiousNotified = true → d.idleNotified = true) :
    (runTicks cfg isActive d trace).2.1 ≤
      (if d.idleNotified = true then 0 else 1) ∧
    (runTicks cfg isActive d trace).2.2 ≤
      (if d.obnoxiousNotified = true then 0 else 1) ∧
    (runTicks cfg isActive d trace).2.1 +
      (runTicks cfg isActive d trace).2.2 ≤ 2 := by
  have h := runTicks_bound cfg isActive trace d hinv
  have hq : (if d.idleNotified = true then 0 else 1) ≤ 1 := by
    split <;> omega
  have hb : (if d.obnoxiousNotified = true then 0 else 1) ≤ 1 := by
    split <;> omega
  have h1 := h.1
  have h2 := h.2
  exact ⟨by omega, by omega, by omega⟩

/-- Witness for the amended C7 on the concrete escalation trace: exactly
one quiet and one obnoxious idle alert, within the bounds. -/
theorem idle_alert_once_per_crossing_amended_witness :
    (runTicks cfgEscalate true sampleExec
      [(sampleFlags, 60000), (coolFlags, 120000)]).2.1 ≤
      (if sampleExec.idleNotified = true then 0 else 1) ∧
    (runTicks cfgEscalate true sampleExec
      [(sampleFlags, 60000), (coolFlags, 120000)]).2.2 ≤
      (if sampleExec.obnoxiousNotified = true then 0 else 1) ∧
    (runTicks cfgEscalate true sampleExec
      [(sampleFlags, 60000), (coolFlags, 120000)]).2.1 +
      (runTicks cfgEscalate true sampleExec
        [(sampleFlags, 60000), (coolFlags, 120000)]).2.2 ≤ 2 :=
  idle_alert_once_per_crossing_amended cfgEscalate true
    [(sampleFlags, 60000), (coolFlags, 120000)] sampleExec (by decide)

/-! ### The global serialization invariant -/

/-- `afterIdle` preserves the coordinator invariant: the pending count is
at most one and the showing flag tracks it exactly. -/
theorem afterIdle_flags (cfg : Config) (now : Nat) (g : GlobFlags)
    (d : ExecutionData) (alerts : List Alert) (idle elapsed : Nat)
    (h1 : g.showing ≤ 1)
    (h2 : g.isNotificationShowing = decide (g.showing = 1)) :
    (afterIdle cfg now g d alerts idle elapsed).flags.showing ≤ 1 ∧
    (afterIdle cfg now g d alerts idle elapsed).flags.isNotificationShowing =
      decide ((afterIdle cfg now g d alerts idle elapsed).flags.showing = 1)
    := by
  simp only [afterIdle]
  split_ifs with hA hT
  · exact ⟨h1, h2⟩
  · have hb : gateOpen g now = true := by
      simp only [Bool.and_eq_true] at hT
      exact hT.1.1.2
    have hns : g.isNotificationShowing = false := by
      simp only [gateOpen, Bool.and_eq_true, Bool.not_eq_true'] at hb
      exact hb.1
    have h0 : g.showing = 0 := by
      rw [hns] at h2
      have hne : ¬ g.showing = 1 := by
        intro hx
        rw [hx] at h2
        simp at h2
      omega
    constructor
    · simp [present, h0]
    · simp [present, h0]
  · exact ⟨h1, h2⟩

/-- One tick evaluation of one execution preserves the coordinator
invariant: an alert is only presented while nothing is showing, and
presenting sets the flag. -/
theorem processExecution_flags (cfg : Config) (now : Nat) (isActive : Bool)
    (g : GlobFlags) (d : ExecutionData)
    (h1 : g.showing ≤ 1)
    (h2 : g.isNotificationShowing = decide (g.showing = 1)) :
    (processExecution cfg now isActive g d).flags.showing ≤ 1 ∧
    (processExecution cfg now isActive g d).flags.isNotificationShowing =
      decide ((processExecution cfg now isActive g d).flags.showing = 1)
    := by
  unfold processExecution
  split_ifs with hE hA hS
  · exact ⟨h1, h2⟩
  · exact ⟨h1, h2⟩
  · exact ⟨h1, h2⟩
  · simp only [processMonitored]
    by_cases hg : gateOpen g now = true
    · have hgi : (if gateOpen g now = true then
          idleDecision cfg.obnoxiousMode
            (isPastIdleCalc cfg ((now - d.lastActivity) / 1000))
            (isPastObnoxiousCalc cfg ((now - d.lastActivity) / 1000)) d
        else none) =
          idleDecision cfg.obnoxiousMode
            (isPastIdleCalc cfg ((now - d.lastActivity) / 1000))
            (isPastObnoxiousCalc cfg ((now - d.lastActivity) / 1000)) d :=
        if_pos hg
      simp only [hgi]
      have hns : g.isNotificationShowing = false := by
        simp only [gateOpen, Bool.and_eq_true, Bool.not_eq_true'] at hg
        exact hg.1
      have h0 : g.showing = 0 := by
        rw [hns] at h2
        have hne : ¬ g.showing = 1 := by
          intro hx
          rw [hx] at h2
          simp at h2
        omega
      cases idleDecision cfg.obnoxiousMode
          (isPastIdleCalc cfg ((now - d.lastActivity) / 1000))
          (isPastObnoxiousCalc cfg ((now - d.lastActivity) / 1000)) d with
      | none => exact afterIdle_flags cfg now g d [] _ _ h1 h2
      | some b =>
        refine afterIdle_flags cfg now (present g) (fireIdle b d)
          [Alert.idle b] _ _ ?_ ?_
        · simp [present, h0]
        · simp [present, h0]
    · have hgi : (if gateOpen g now = true then
          idleDecision cfg.obnoxiousMode
            (isPastIdleCalc cfg ((now - d.lastActivity) / 1000))
            (isPastObnoxiousCalc cfg ((now - d.lastActivity) / 1000)) d
        else none) = none := if_neg hg
      simp only [hgi]
      exact afterIdle_flags cfg now g d [] _ _ h1 h2

/-- The tick's fold over the registry preserves the coordinator
invariant. -/
theorem tickFold_flags (cfg : Config) (now : Nat) (act : Option Nat) :
    ∀ (l : List ExecutionData) (g : GlobFlags),
      g.showing ≤ 1 → g.isNotificationShowing = decide (g.showing = 1) →
      (tickFold cfg now act g l).1.showing ≤ 1 ∧
      (tickFold cfg now act g l).1.isNotificationShowing =
        decide ((tickFold cfg now act g l).1.showing = 1) := by
  intro l
  induction l with
  | nil => intro g h1 h2; exact ⟨h1, h2⟩
  | cons d ds ih =>
    intro g h1 h2
    simp only [tickFold]
    have hp := processExecution_flags cfg now (act == some d.terminalId) g d
      h1 h2
    exact ih _ hp.1 hp.2

/-- Every atomic step of the extension preserves the coordinator
invariant. -/
theorem step_flags {cfg : Config} {s t : SysState} (hst : Step cfg s t)
    (h1 : s.flags.showing ≤ 1)
    (h2 : s.flags.isNotificationShowing = decide (s.flags.showing = 1)) :
    t.flags.showing ≤ 1 ∧
    t.flags.isNotificationShowing = decide (t.flags.showing = 1) := by
  cases hst with
  | tick now act =>
    simp only [tickStep]
    split_ifs with he
    · exact tickFold_flags cfg now act s.executions s.flags h1 h2
    · exact ⟨h1, h2⟩
  | start now tid name cmd =>
    simp only [startStep]
    split_ifs <;> exact ⟨h1, h2⟩
  | activity i now => exact ⟨h1, h2⟩
  | endExec i => exact ⟨h1, h2⟩
  | menuResetTimer i now => exact ⟨h1, h2⟩
  | menuSnooze i now mins => exact ⟨h1, h2⟩
  | menuTerminate i => exact ⟨h1, h2⟩
  | menuExclude i => exact ⟨h1, h2⟩
  | dismiss i now a hshow =>
    have hone : s.flags.showing = 1 := by
      rw [hshow] at h2
      exact of_decide_eq_true h2.symm
    constructor
    · simp [dismissFlags, hone]
    · simp [dismissFlags, hone]

/-- A tick evaluation only ever presents (increments the pending count)
while nothing is showing: auxiliary form for the `afterIdle` stage. -/
theorem afterIdle_present_only_clear (cfg : Config) (now : Nat)
    (g : GlobFlags) (d : ExecutionData) (alerts : List Alert)
    (idle elapsed : Nat)
    (h : g.showing < (afterIdle cfg now g d alerts idle elapsed).flags.showing)
    : g.isNotificationShowing = false := by
  simp only [afterIdle] at h
  split_ifs at h with hA hT
  · simp at h
  · have hb : gateOpen g now = true := by
      simp only [Bool.and_eq_true] at hT
      exact hT.1.1.2
    simp only [gateOpen, Bool.and_eq_true, Bool.not_eq_true'] at hb
    exact hb.1
  · simp at h

/-- Claim C2: the global serialization invariant.  First part: in every
state reachable by any interleaving of ticks, host events, menu actions
and dismissals, at most one alert (of any kind, for any execution) is
pending process-wide, and `isNotificationShowing` is set exactly while one
is — the flag is set at presentation time (inside the tick) and cleared
only by a dismissal step.  Second part: a tick evaluation only presents a
new alert (idle or total) when the showing flag is clear on entry. -/
theorem at_most_one_alert_showing (cfg : Config) :
    (∀ s : SysState, Reachable cfg s →
      s.flags.showing ≤ 1 ∧
      s.flags.isNotificationShowing = decide (s.flags.showing = 1)) ∧
    (∀ (now : Nat) (isActive : Bool) (g : GlobFlags) (d : ExecutionData),
      g.showing < (processExecution cfg now isActive g d).flags.showing →
      g.isNotificationShowing = false) := by
  constructor
  · intro s hs
    induction hs with
    | init => exact ⟨by simp [initState], by simp [initState]⟩
    | step hr hst ih => exact step_flags hst ih.1 ih.2
  · intro now isActive g d hlt
    unfold processExecution at hlt
    split_ifs at hlt with hE hA hS
    · simp at hlt
    · simp at hlt
    · simp at hlt
    · simp only [processMonitored] at hlt
      by_cases hg : gateOpen g now = true
      · simp only [gateOpen, Bool.and_eq_true, Bool.not_eq_true'] at hg
        exact hg.1
      · have hgi : (if gateOpen g now = true then
            idleDecision cfg.obnoxiousMode
              (isPastIdleCalc cfg ((now - d.lastActivity) / 1000))
              (isPastObnoxiousCalc cfg ((now - d.lastActivity) / 1000)) d
          else none) = none := if_neg hg
        simp only [hgi] at hlt
        exact afterIdle_present_only_clear cfg now g d [] _ _ hlt

/-- Witness for C2: the initial state satisfies the invariant, and a tick
that presents an alert (pending count rises 0 to 1 on `sampleExec` at
60 s idle) starts from a clear flag. -/
theorem at_most_one_alert_showing_witness :
    (initState.flags.showing ≤ 1 ∧
     initState.flags.isNotificationShowing =
       decide (initState.flags.showing = 1)) ∧
    sampleFlags.isNotificationShowing = false :=
  ⟨(at_most_one_alert_showing cfgBase).1 initState Reachable.init,
   (at_most_one_alert_showing cfgBase).2 60000 true sampleFlags sampleExec
     (by decide)⟩

/-! ### The registry latch invariant

`obnoxiousNotified → idleNotified` holds of every tracked record in every
reachable state: every setter of `obnoxiousNotified` (firing an obnoxious
idle alert) also sets `idleNotified`, and every clearer of `idleNotified`
(activity, reset, snooze) also clears `obnoxiousNotified`.  This justifies
the `hinv` hypothesis of the idle-alert theorems. -/

/-- The termination protocol does not touch the alert latches. -/
theorem terminateExecution_latches (cfg : Config) (y : ExecutionData) :
    (terminateExecution cfg y).1.obnoxiousNotified = y.obnoxiousNotified ∧
    (terminateExecution cfg y).1.idleNotified = y.idleNotified := by
  rw [terminateExecution_fst]
  split <;> exact ⟨rfl, rfl⟩

/-- Membership after an in-place update. -/
theorem mem_updateAt {l : List ExecutionData} {i : Nat}
    {f : ExecutionData → ExecutionData} {x : ExecutionData}
    (hx : x ∈ updateAt l i f) : x ∈ l ∨ ∃ y, y ∈ l ∧ x = f y := by
  induction l generalizing i with
  | nil => simp [updateAt] at hx
  | cons d ds ih =>
    cases i with
    | zero =>
      simp only [updateAt] at hx
      rcases List.mem_cons.mp hx with h | h
      · exact Or.inr ⟨d, List.mem_cons_self d ds, h⟩
      · exact Or.inl (List.mem_cons_of_mem _ h)
    | succ j =>
      simp only [updateAt] at hx
      rcases List.mem_cons.mp hx with h | h
      · exact Or.inl (h ▸ List.mem_cons_self d ds)
      · rcases ih h with h2 | ⟨y, hy, hxy⟩
        · exact Or.inl (List.mem_cons_of_mem _ h2)
        · exact Or.inr ⟨y, List.mem_cons_of_mem _ hy, hxy⟩

/-- Membership after a removal. -/
theorem mem_removeAt {l : List ExecutionData} {i : Nat} {x : ExecutionData}
    (hx : x ∈ removeAt l i) : x ∈ l := by
  induction l generalizing i with
  | nil => simp [removeAt] at hx
  | cons d ds ih =>
    cases i with
    | zero =>
      simp only [removeAt] at hx
      exact List.mem_cons_of_mem _ hx
    | succ j =>
      simp only [removeAt] at hx
      rcases List.mem_cons.mp hx with h | h
      · exact h ▸ List.mem_cons_self d ds
      · exact List.mem_cons_of_mem _ (ih h)

/-- The tick's fold preserves the latch invariant on every record. -/
theorem tickFold_mem_inv (cfg : Config) (now : Nat) (act : Option Nat) :
    ∀ (l : List ExecutionData) (g : GlobFlags),
      (∀ d ∈ l, d.obnoxiousNotified = true → d.idleNotified = true) →
      ∀ x ∈ (tickFold cfg now act g l).2,
        x.obnoxiousNotified = true → x.idleNotified = true := by
  intro l
  induction l with
  | nil => intro g hl x hx; simp [tickFold] at hx
  | cons d ds ih =>
    intro g hl x hx
    simp only [tickFold] at hx
    rcases List.mem_cons.mp hx with h | h
    · subst h
      exact (processExecution_latch_step cfg now (act == some d.terminalId)
        g d (hl d (List.mem_cons_self d ds))).1
    · exact ih _ (fun y hy => hl y (List.mem_cons_of_mem _ hy)) x h

/-- Every atomic step preserves the latch invariant on every record. -/
theorem step_latch_inv {cfg : Config} {s t : SysState} (hst : Step cfg s t)
    (h : ∀ d ∈ s.executions,
      d.obnoxiousNotified = true → d.idleNotified = true) :
    ∀ d ∈ t.executions,
      d.obnoxiousNotified = true → d.idleNotified = true := by
  cases hst with
  | tick now act =>
    intro d hd
    simp only [tickStep] at hd
    split_ifs at hd with he
    · exact tickFold_mem_inv cfg now act s.executions s.flags h d hd
    · exact h d hd
  | start now tid name cmd =>
    intro d hd
    simp only [startStep] at hd
    split_ifs at hd with he
    · exact h d hd
    · rcases List.mem_append.mp hd with h1 | h1
      · exact h d h1
      · have hm : d = mkExecution now tid name cmd := by simpa using h1
        subst hm
        intro hob
        simp [mkExecution] at hob
  | activity i now =>
    intro d hd
    rcases mem_updateAt hd with h1 | ⟨y, hy, hdy⟩
    · exact h d h1
    · subst hdy
      intro hob
      simp [onActivity] at hob
  | endExec i => exact fun d hd => h d (mem_removeAt hd)
  | menuResetTimer i now =>
    intro d hd
    rcases mem_updateAt hd with h1 | ⟨y, hy, hdy⟩
    · exact h d h1
    · subst hdy
      intro hob
      simp [onActivity] at hob
  | menuSnooze i now mins =>
    intro d hd
    rcases mem_updateAt hd with h1 | ⟨y, hy, hdy⟩
    · exact h d h1
    · subst hdy
      intro hob
      simp [snoozeAction] at hob
  | menuTerminate i =>
    intro d hd
    rcases mem_updateAt hd with h1 | ⟨y, hy, hdy⟩
    · exact h d h1
    · subst hdy
      intro hob
      rw [(terminateExecution_latches cfg y).2]
      exact h y hy ((terminateExecution_latches cfg y).1 ▸ hob)
  | menuExclude i => exact fun d hd => h d (mem_removeAt hd)
  | dismiss i now a hshow =>
    intro d hd
    cases a with
    | plain => exact h d hd
    | resetTimer =>
      rcases mem_updateAt hd with h1 | ⟨y, hy, hdy⟩
      · exact h d h1
      · subst hdy
        intro hob
        simp [onActivity] at hob
    | snooze mins =>
      rcases mem_updateAt hd with h1 | ⟨y, hy, hdy⟩
      · exact h d h1
      · subst hdy
        intro hob
        simp [snoozeAction] at hob
    | terminate =>
      rcases mem_updateAt hd with h1 | ⟨y, hy, hdy⟩
      · exact h d h1
      · subst hdy
        intro hob
        rw [(terminateExecution_latches cfg y).2]
        exact h y hy ((terminateExecution_latches cfg y).1 ▸ hob)
    | exclude => exact h d (mem_removeAt hd)

/-- In every reachable state, every tracked record satisfies
`obnoxiousNotified → idleNotified`. -/
theorem reachable_latch_inv (cfg : Config) {s : SysState}
    (hs : Reachable cfg s) :
    ∀ d ∈ s.executions,
      d.obnoxiousNotified = true → d.idleNotified = true := by
  induction hs with
  | init => intro d hd; simp [initState] at hd
  | step hr hst ih => exact step_latch_inv hst ih

end TerminalIdleMonitor
